import Mathlib

/-!
Verification of the antsibull-core artifact acquisition engine.

This file gives a shallow embedding, in Lean 4, of the parts of
antsibull-core that resolve, download, verify and cache artifacts:

* src/antsibull_core/galaxy.py
  (GalaxyClient._get_galaxy_versions, GalaxyClient.get_latest_matching_version,
   CollectionDownloader.download),
* src/antsibull_core/utils/http.py (RetryGetManager, retry_get),
* src/antsibull_core/utils/hashing.py (verify_hash, verify_a_hash),
* src/antsibull_core/ansible_core.py
  (AnsibleCorePyPiClient.retrieve, source_is_correct_version, get_ansible_core).

External collaborators (aiohttp, aiofiles, hashlib, the semantic_version and
packaging libraries, the filesystem) are modelled as explicit inputs: network
responses become oracle functions or fields of an environment record, file
digests become digest oracles, and the event loop disappears because every
modelled call is sequential within one acquisition.  Side effects that the
specification talks about (network requests, digest checks, cache writes) are
made observable by returning an explicit effect counter record next to the
result.
-/

namespace Antsibull

/-!
Semantic versions.  galaxy.py sorts and compares versions with the external
semantic_version library: a version is MAJOR.MINOR.PATCH with an optional
prerelease identifier list, prerelease identifiers are either numeric (compared
as integers, ordered before alphanumeric ones) or alphanumeric (compared by
code points), a prerelease sorts below the plain release with the same core,
and a shorter prerelease list sorts below an extension of it.  We realise this
order by mapping a version to a lexicographic key built from orders that
Mathlib already provides; alphanumeric identifiers are kept as character lists,
which matches code-point comparison of Python strings.
-/

/-- A prerelease identifier: numeric, or alphanumeric as its character list.
Numeric identifiers order before alphanumeric ones, as in semver. -/
abbrev PreId := Nat ⊕ₗ List Char

/-- Model of semantic_version.Version: major.minor.patch plus the (possibly
empty) prerelease identifier tuple.  Build metadata is ignored by the order
used in galaxy.py and is not modelled. -/
structure SemVer where
  major : Nat
  minor : Nat
  patch : Nat
  pre : List PreId
deriving DecidableEq

instance : Inhabited SemVer := ⟨⟨0, 0, 0, []⟩⟩

/-- Key for the prerelease component: a stable version (empty prerelease
tuple) sorts above every prerelease of the same core, and prerelease tuples
compare lexicographically. -/
def preKey : List PreId → WithTop (List PreId)
  | [] => (⊤ : WithTop (List PreId))
  | l => (l : WithTop (List PreId))

/-- Order key of a version: lexicographic on (major, minor, patch, prerelease
component). -/
def SemVer.key (v : SemVer) : Lex (Nat × Lex (Nat × Lex (Nat × WithTop (List PreId)))) :=
  toLex (v.major, toLex (v.minor, toLex (v.patch, preKey v.pre)))

/-- The relation used to sort version lists in descending order, as
sem_versions.sort(reverse=True) does in get_latest_matching_version. -/
def semverDescLe (a b : SemVer) : Prop := SemVer.key b ≤ SemVer.key a

instance : DecidableRel semverDescLe := fun a b =>
  inferInstanceAs (Decidable (SemVer.key b ≤ SemVer.key a))

instance : IsTrans SemVer semverDescLe := ⟨fun _ _ _ h1 h2 => le_trans h2 h1⟩

instance : IsTotal SemVer semverDescLe := ⟨fun a b => (le_total b.key a.key).imp id id⟩

instance : IsRefl SemVer semverDescLe := ⟨fun a => le_refl a.key⟩

/-- Descending sort of a version list (sem_versions.sort(reverse=True)). -/
def sortDesc (l : List SemVer) : List SemVer := List.insertionSort semverDescLe l

theorem sortDesc_sorted (l : List SemVer) : List.Sorted semverDescLe (sortDesc l) :=
  List.sorted_insertionSort _ l

theorem sortDesc_perm (l : List SemVer) : (sortDesc l).Perm l :=
  List.perm_insertionSort _ l

theorem mem_sortDesc {l : List SemVer} {v : SemVer} : v ∈ sortDesc l ↔ v ∈ l :=
  (sortDesc_perm l).mem_iff

/-- The head of a nonempty list is one of its elements. -/
theorem headI_mem_of_ne_nil {l : List SemVer} (h : l ≠ []) : l.headI ∈ l := by
  cases l with
  | nil => exact absurd rfl h
  | cons a t => exact List.mem_cons_self a t

/-- In a descending-sorted list, the first element satisfying p is maximal
among all elements satisfying p. -/
theorem sorted_find?_ge {p : SemVer → Bool} :
    ∀ {l : List SemVer}, List.Sorted semverDescLe l → ∀ {v : SemVer},
      l.find? p = some v → ∀ w ∈ l, p w = true → SemVer.key w ≤ SemVer.key v := by
  intro l
  induction l with
  | nil => intro _ v hf; simp [List.find?] at hf
  | cons a rest ih =>
    intro hs v hf w hw hpw
    rcases List.sorted_cons.mp hs with ⟨ha, hrest⟩
    by_cases hpa : p a = true
    · have hva : v = a := by
        rw [List.find?_cons_of_pos _ hpa] at hf
        exact (Option.some_inj.mp hf).symm
      subst hva
      rcases List.mem_cons.mp hw with rfl | hw'
      · exact le_refl _
      · exact ha w hw'
    · rw [List.find?_cons_of_neg _ (by simp [hpa])] at hf
      rcases List.mem_cons.mp hw with rfl | hw'
      · exact absurd hpw hpa
      · exact ih hrest hf w hw' hpw

/-- In a descending-sorted list with at least one element satisfying p, the
head of the p-filtered list is maximal among all elements satisfying p. -/
theorem sorted_filter_headI_ge {p : SemVer → Bool} :
    ∀ {l : List SemVer}, List.Sorted semverDescLe l → l.filter p ≠ [] →
      ∀ w ∈ l, p w = true → SemVer.key w ≤ SemVer.key ((l.filter p).headI) := by
  intro l
  induction l with
  | nil => intro _ h; simp [List.filter] at h
  | cons a rest ih =>
    intro hs hne w hw hpw
    rcases List.sorted_cons.mp hs with ⟨ha, hrest⟩
    by_cases hpa : p a = true
    · rw [List.filter_cons_of_pos hpa]
      rcases List.mem_cons.mp hw with rfl | hw'
      · exact le_refl _
      · exact ha w hw'
    · rw [List.filter_cons_of_neg (by simp [hpa])]
      rw [List.filter_cons_of_neg (by simp [hpa])] at hne
      rcases List.mem_cons.mp hw with rfl | hw'
      · exact absurd hpw hpa
      · exact ih hrest hne w hw' hpw

namespace Galaxy

/-- Errors surfaced by the galaxy module.  runtimeError stands for the
RuntimeError that retry_get raises once its retry budget is exhausted,
outOfFuel is the artificial result of running the fuelled pagination recursion
out of fuel (the Python recursion has no such bound). -/
inductive GalaxyErr where
  | noSuchCollection
  | noSuchVersion
  | keyError
  | runtimeError
  | outOfFuel
deriving DecidableEq

/-- The version-selection loop of GalaxyClient.get_latest_matching_version:
iterate over the spec-matching versions in the given order; a prerelease match
is appended to the prereleases accumulator and the loop continues; the first
stable match is returned at once.  When the loop ends, the first accumulated
prerelease is returned when pre is set and one exists, otherwise NoSuchVersion
is raised. -/
def glmvLoop (spec : SemVer → Bool) (pre : Bool) :
    List SemVer → List SemVer → Except GalaxyErr SemVer
  | [], prereleases =>
    if pre && !prereleases.isEmpty then Except.ok prereleases.headI
    else Except.error GalaxyErr.noSuchVersion
  | v :: rest, prereleases =>
    if spec v then
      if !v.pre.isEmpty then glmvLoop spec pre rest (prereleases ++ [v])
      else Except.ok v
    else glmvLoop spec pre rest prereleases

/-- GalaxyClient.get_latest_matching_version, given the version list that
get_versions returned (already parsed by the semantic_version library) and the
spec-membership test of semantic_version.SimpleSpec as a predicate. -/
def get_latest_matching_version (versions : List SemVer) (spec : SemVer → Bool)
    (pre : Bool) : Except GalaxyErr SemVer :=
  glmvLoop spec pre (sortDesc versions) []

/-- Closed form of the selection loop: the first stable match wins when one
exists; otherwise all matches are prereleases, collected in encounter order
behind the accumulator. -/
theorem glmvLoop_eq (spec : SemVer → Bool) (pre : Bool) :
    ∀ (l acc : List SemVer),
      glmvLoop spec pre l acc =
        match l.find? (fun v => spec v && v.pre.isEmpty) with
        | some v => Except.ok v
        | none =>
          let pres := acc ++ l.filter (fun v => spec v && !v.pre.isEmpty)
          if pre && !pres.isEmpty then Except.ok pres.headI
          else Except.error GalaxyErr.noSuchVersion := by
  intro l
  induction l with
  | nil => intro acc; simp [glmvLoop]
  | cons v rest ih =>
    intro acc
    by_cases hs : spec v = true
    · by_cases hp : v.pre.isEmpty = true
      · simp [glmvLoop, hs, hp, List.find?_cons_of_pos]
      · have hp' : v.pre.isEmpty = false := by simpa using hp
        rw [glmvLoop]
        simp only [hs, hp', if_true, Bool.not_false]
        rw [ih (acc ++ [v])]
        rw [List.find?_cons_of_neg _ (by simp [hs, hp'])]
        rw [List.filter_cons_of_pos (by simp [hs, hp'])]
        simp [List.append_assoc]
    · have hs' : spec v = false := by simpa using hs
      rw [glmvLoop]
      simp only [hs', if_false, Bool.false_and]
      rw [ih acc]
      rw [List.find?_cons_of_neg _ (by simp [hs'])]
      rw [List.filter_cons_of_neg (by simp [hs'])]
      simp

/-- C1: whenever the available versions of a collection contain a stable
version V1 and a strictly higher prerelease V2 that both satisfy the version
specification, get_latest_matching_version with pre set returns the highest
stable version satisfying the spec, which is stable and in particular never
the higher prerelease V2. -/
theorem get_latest_matching_version_prefers_stable
    (versions : List SemVer) (spec : SemVer → Bool) (V1 V2 : SemVer)
    (h1 : V1 ∈ versions) (h2 : V2 ∈ versions)
    (h1s : V1.pre = []) (h2p : V2.pre ≠ [])
    (hlt : SemVer.key V1 < SemVer.key V2)
    (hs1 : spec V1 = true) (hs2 : spec V2 = true) :
    ∃ v, get_latest_matching_version versions spec true = Except.ok v ∧
      v.pre = [] ∧ spec v = true ∧ v ∈ versions ∧
      (∀ w ∈ versions, w.pre = [] → spec w = true →
        SemVer.key w ≤ SemVer.key v) ∧
      v ≠ V2 := by
  have hV1mem : V1 ∈ sortDesc versions := mem_sortDesc.mpr h1
  have hpV1 : (fun v => spec v && v.pre.isEmpty) V1 = true := by simp [hs1, h1s]
  have hsome : ((sortDesc versions).find? (fun v => spec v && v.pre.isEmpty)).isSome := by
    rw [List.find?_isSome]
    exact ⟨V1, hV1mem, hpV1⟩
  obtain ⟨v, hv⟩ := Option.isSome_iff_exists.mp hsome
  refine ⟨v, ?_, ?_, ?_, ?_, ?_, ?_⟩
  · rw [get_latest_matching_version, glmvLoop_eq, hv]
  · have hpv := List.find?_some hv
    have : v.pre.isEmpty = true := (Bool.and_eq_true_iff.mp hpv).2
    cases h : v.pre with
    | nil => rfl
    | cons a t => rw [h] at this; simp at this
  · have hpv := List.find?_some hv
    exact (Bool.and_eq_true_iff.mp hpv).1
  · exact mem_sortDesc.mp (List.mem_of_find?_eq_some hv)
  · intro w hw hwpre hws
    have hw' : w ∈ sortDesc versions := mem_sortDesc.mpr hw
    have hpw : (fun v => spec v && v.pre.isEmpty) w = true := by simp [hws, hwpre]
    exact sorted_find?_ge (sortDesc_sorted versions) hv w hw' hpw
  · intro hEq
    have hpv := List.find?_some hv
    have hvpre : v.pre.isEmpty = true := (Bool.and_eq_true_iff.mp hpv).2
    rw [hEq] at hvpre
    cases h : V2.pre with
    | nil => exact h2p h
    | cons a t => rw [h] at hvpre; simp at hvpre

theorem get_latest_matching_version_prefers_stable_witness :
    ∃ v, get_latest_matching_version
        [⟨1, 0, 0, []⟩, ⟨1, 1, 0, [Sum.inlₗ 1]⟩] (fun _ => true) true = Except.ok v ∧
      v.pre = [] ∧ (fun _ : SemVer => true) v = true ∧
      v ∈ [⟨1, 0, 0, []⟩, ⟨1, 1, 0, [Sum.inlₗ 1]⟩] ∧
      (∀ w ∈ [(⟨1, 0, 0, []⟩ : SemVer), ⟨1, 1, 0, [Sum.inlₗ 1]⟩],
        w.pre = [] → (fun _ : SemVer => true) w = true →
        SemVer.key w ≤ SemVer.key v) ∧
      v ≠ ⟨1, 1, 0, [Sum.inlₗ 1]⟩ :=
  get_latest_matching_version_prefers_stable
    [⟨1, 0, 0, []⟩, ⟨1, 1, 0, [Sum.inlₗ 1]⟩] (fun _ => true)
    ⟨1, 0, 0, []⟩ ⟨1, 1, 0, [Sum.inlₗ 1]⟩
    (by decide) (by decide) rfl (by decide) (by decide) rfl rfl

/-- C6: when the specification is satisfied only by prerelease versions (and
by at least one), get_latest_matching_version raises NoSuchVersion with pre
unset, and with pre set returns the highest prerelease satisfying the
specification. -/
theorem get_latest_matching_version_prerelease_only
    (versions : List SemVer) (spec : SemVer → Bool)
    (hall : ∀ v ∈ versions, spec v = true → v.pre ≠ [])
    (hex : ∃ v ∈ versions, spec v = true) :
    get_latest_matching_version versions spec false =
      Except.error GalaxyErr.noSuchVersion ∧
    ∃ v, get_latest_matching_version versions spec true = Except.ok v ∧
      v ∈ versions ∧ spec v = true ∧ v.pre ≠ [] ∧
      ∀ w ∈ versions, spec w = true → SemVer.key w ≤ SemVer.key v := by
  have hfind : (sortDesc versions).find? (fun v => spec v && v.pre.isEmpty) = none := by
    rw [List.find?_eq_none]
    intro x hx hpx
    have hxs : spec x = true := (Bool.and_eq_true_iff.mp hpx).1
    have hxe : x.pre.isEmpty = true := (Bool.and_eq_true_iff.mp hpx).2
    have hxn := hall x (mem_sortDesc.mp hx) hxs
    cases h : x.pre with
    | nil => exact hxn h
    | cons a t => rw [h] at hxe; simp at hxe
  obtain ⟨v0, hv0mem, hv0s⟩ := hex
  have hv0pre := hall v0 hv0mem hv0s
  have hv0e : v0.pre.isEmpty = false := by
    cases h : v0.pre with
    | nil => exact absurd h hv0pre
    | cons a t => rfl
  have hfil : (sortDesc versions).filter (fun v => spec v && !v.pre.isEmpty) ≠ [] := by
    have hv0' : v0 ∈ sortDesc versions := mem_sortDesc.mpr hv0mem
    exact List.ne_nil_of_mem (List.mem_filter.mpr ⟨hv0', by simp [hv0s, hv0e]⟩)
  constructor
  · rw [get_latest_matching_version, glmvLoop_eq, hfind]
    simp
  · have hne : ((sortDesc versions).filter (fun v => spec v && !v.pre.isEmpty)).isEmpty = false := by
      cases h : (sortDesc versions).filter (fun v => spec v && !v.pre.isEmpty) with
      | nil => exact absurd h hfil
      | cons a t => rfl
    refine ⟨((sortDesc versions).filter (fun v => spec v && !v.pre.isEmpty)).headI, ?_, ?_, ?_, ?_, ?_⟩
    · rw [get_latest_matching_version, glmvLoop_eq, hfind]
      simp [hne]
    · have hmem := headI_mem_of_ne_nil hfil
      exact mem_sortDesc.mp (List.mem_filter.mp hmem).1
    · have hmem := headI_mem_of_ne_nil hfil
      exact (Bool.and_eq_true_iff.mp (List.mem_filter.mp hmem).2).1
    · have hmem := headI_mem_of_ne_nil hfil
      have := (Bool.and_eq_true_iff.mp (List.mem_filter.mp hmem).2).2
      intro hcon
      rw [hcon] at this
      simp at this
    · intro w hw hws
      have hwpre := hall w hw hws
      have hwe : w.pre.isEmpty = false := by
        cases h : w.pre with
        | nil => exact absurd h hwpre
        | cons a t => rfl
      exact sorted_filter_headI_ge (sortDesc_sorted versions) hfil w
        (mem_sortDesc.mpr hw) (by simp [hws, hwe])

theorem get_latest_matching_version_prerelease_only_witness :
    get_latest_matching_version
        [⟨2, 0, 0, [Sum.inlₗ 1]⟩, ⟨2, 0, 0, [Sum.inlₗ 2]⟩] (fun _ => true) false =
      Except.error GalaxyErr.noSuchVersion ∧
    ∃ v, get_latest_matching_version
        [⟨2, 0, 0, [Sum.inlₗ 1]⟩, ⟨2, 0, 0, [Sum.inlₗ 2]⟩] (fun _ => true) true = Except.ok v ∧
      v ∈ [⟨2, 0, 0, [Sum.inlₗ 1]⟩, ⟨2, 0, 0, [Sum.inlₗ 2]⟩] ∧
      (fun _ : SemVer => true) v = true ∧ v.pre ≠ [] ∧
      ∀ w ∈ [(⟨2, 0, 0, [Sum.inlₗ 1]⟩ : SemVer), ⟨2, 0, 0, [Sum.inlₗ 2]⟩],
        (fun _ : SemVer => true) w = true → SemVer.key w ≤ SemVer.key v :=
  get_latest_matching_version_prerelease_only
    [⟨2, 0, 0, [Sum.inlₗ 1]⟩, ⟨2, 0, 0, [Sum.inlₗ 2]⟩] (fun _ => true)
    (by decide) ⟨⟨2, 0, 0, [Sum.inlₗ 1]⟩, by decide, rfl⟩

end Galaxy

namespace Http

/-- Outcome of one GET attempt inside RetryGetManager.__aenter__: a response
arrived with some status, the attempt timed out (asyncio.TimeoutError), or
another exception was raised with a message. -/
inductive NetOutcome where
  | resp (status : Nat)
  | timeout
  | exc (msg : String)
deriving DecidableEq

/-- The failure string recorded for a failed attempt: str(status_code) for a
rejected response, the literal string for a timeout, str(error) for any other
exception. -/
def statusString : NetOutcome → String
  | NetOutcome.resp s => toString s
  | NetOutcome.timeout => "timeout"
  | NetOutcome.exc m => m

/-- Whether the loop treats an attempt as failed: every timeout and exception,
and every response whose status is at least 400 and not in the acceptable
set. -/
def attemptFails (acceptable : List Nat) : NetOutcome → Bool
  | NetOutcome.resp s => !(decide (s < 400) || decide (s ∈ acceptable))
  | NetOutcome.timeout => true
  | NetOutcome.exc _ => true

/-- The message of the RuntimeError raised on exhaustion, aggregating every
recorded failure string in attempt order. -/
def aggregateMessage (callString : String) (errors : List String) : String :=
  "Repeated error when calling " ++ callString ++ ": received status codes " ++
    String.intercalate ", " errors

/-- Retry loop of RetryGetManager.__aenter__.  outcomes maps the 0-based
attempt index to the network outcome of that attempt; remaining counts the
loop iterations left out of max_retries; errors accumulates the failure
strings.  A response with status below 400 or in the acceptable set is
returned at once, paired with the number of attempts issued; any other
outcome appends its failure string and retries; when the budget is exhausted
the aggregated RuntimeError message is raised.  The sleep between attempts
and the warning per failure have no observable effect on the result and are
not modelled. -/
def aenterGo (outcomes : Nat → NetOutcome) (acceptable : List Nat)
    (callString : String) :
    Nat → Nat → List String → Except String (Nat × Nat)
  | 0, _, errors => Except.error (aggregateMessage callString errors)
  | remaining + 1, attempt, errors =>
    match outcomes attempt with
    | NetOutcome.resp s =>
      if s < 400 ∨ s ∈ acceptable then Except.ok (s, attempt + 1)
      else aenterGo outcomes acceptable callString remaining (attempt + 1)
        (errors ++ [toString s])
    | NetOutcome.timeout =>
      aenterGo outcomes acceptable callString remaining (attempt + 1)
        (errors ++ ["timeout"])
    | NetOutcome.exc m =>
      aenterGo outcomes acceptable callString remaining (attempt + 1)
        (errors ++ [m])

/-- RetryGetManager.__aenter__, started at attempt 0 with no recorded
errors. -/
def retryGetManagerAenter (outcomes : Nat → NetOutcome) (acceptable : List Nat)
    (callString : String) (max_retries : Nat) : Except String (Nat × Nat) :=
  aenterGo outcomes acceptable callString max_retries 0 []

/-- The retry_get wrapper: it clamps max_retries to at least 1 and builds the
manager. -/
def retry_get (outcomes : Nat → NetOutcome) (acceptable : List Nat)
    (callString : String) (max_retries : Nat) : Except String (Nat × Nat) :=
  retryGetManagerAenter outcomes acceptable callString (max max_retries 1)

theorem aenterGo_ok_bounds (outcomes : Nat → NetOutcome) (acceptable : List Nat)
    (callString : String) :
    ∀ remaining attempt errors s n,
      aenterGo outcomes acceptable callString remaining attempt errors =
        Except.ok (s, n) →
      attempt < n ∧ n ≤ attempt + remaining := by
  intro remaining
  induction remaining with
  | zero =>
    intro attempt errors s n h
    simp [aenterGo] at h
  | succ r ih =>
    intro attempt errors s n h
    cases ho : outcomes attempt with
    | resp st =>
      by_cases hc : st < 400 ∨ st ∈ acceptable
      · simp [aenterGo, ho, hc] at h
        omega
      · simp [aenterGo, ho, hc] at h
        have := ih (attempt + 1) (errors ++ [toString st]) s n h
        omega
    | timeout =>
      simp only [aenterGo, ho] at h
      have := ih (attempt + 1) (errors ++ ["timeout"]) s n h
      omega
    | exc m =>
      simp only [aenterGo, ho] at h
      have := ih (attempt + 1) (errors ++ [m]) s n h
      omega

theorem aenterGo_success (outcomes : Nat → NetOutcome) (acceptable : List Nat)
    (callString : String) :
    ∀ remaining attempt errors k s,
      k < remaining →
      (∀ i, i < k → attemptFails acceptable (outcomes (attempt + i)) = true) →
      outcomes (attempt + k) = NetOutcome.resp s →
      (s < 400 ∨ s ∈ acceptable) →
      aenterGo outcomes acceptable callString remaining attempt errors =
        Except.ok (s, attempt + k + 1) := by
  intro remaining
  induction remaining with
  | zero => intro attempt errors k s hk; omega
  | succ r ih =>
    intro attempt errors k s hk hfail hsucc hacc
    cases k with
    | zero =>
      have h0 : outcomes attempt = NetOutcome.resp s := by simpa using hsucc
      simp [aenterGo, h0, hacc]
    | succ k2 =>
      have hfail0 : attemptFails acceptable (outcomes attempt) = true := by
        simpa using hfail 0 (by omega)
      cases ho : outcomes attempt with
      | resp st =>
        have hnot : ¬(st < 400 ∨ st ∈ acceptable) := by
          rw [ho] at hfail0
          simp [attemptFails] at hfail0
          rintro (hlt2 | hmem2)
          · omega
          · exact hfail0.2 hmem2
        have hres := ih (attempt + 1) (errors ++ [toString st]) k2 s (by omega)
          (fun i hi => by
            have := hfail (i + 1) (by omega)
            rwa [show attempt + (i + 1) = attempt + 1 + i by omega] at this)
          (by rwa [show attempt + 1 + k2 = attempt + (k2 + 1) by omega])
          hacc
        rw [show attempt + (k2 + 1) + 1 = attempt + 1 + k2 + 1 by omega]
        simpa [aenterGo, ho, hnot] using hres
      | timeout =>
        have hres := ih (attempt + 1) (errors ++ ["timeout"]) k2 s (by omega)
          (fun i hi => by
            have := hfail (i + 1) (by omega)
            rwa [show attempt + (i + 1) = attempt + 1 + i by omega] at this)
          (by rwa [show attempt + 1 + k2 = attempt + (k2 + 1) by omega])
          hacc
        rw [show attempt + (k2 + 1) + 1 = attempt + 1 + k2 + 1 by omega]
        simpa [aenterGo, ho] using hres
      | exc m =>
        have hres := ih (attempt + 1) (errors ++ [m]) k2 s (by omega)
          (fun i hi => by
            have := hfail (i + 1) (by omega)
            rwa [show attempt + (i + 1) = attempt + 1 + i by omega] at this)
          (by rwa [show attempt + 1 + k2 = attempt + (k2 + 1) by omega])
          hacc
        rw [show attempt + (k2 + 1) + 1 = attempt + 1 + k2 + 1 by omega]
        simpa [aenterGo, ho] using hres

theorem aenterGo_allfail (outcomes : Nat → NetOutcome) (acceptable : List Nat)
    (callString : String) :
    ∀ remaining attempt errors,
      (∀ i, i < remaining → attemptFails acceptable (outcomes (attempt + i)) = true) →
      aenterGo outcomes acceptable callString remaining attempt errors =
        Except.error (aggregateMessage callString
          (errors ++ (List.range remaining).map
            (fun i => statusString (outcomes (attempt + i))))) := by
  intro remaining
  induction remaining with
  | zero => intro attempt errors _; simp [aenterGo]
  | succ r ih =>
    intro attempt errors hfail
    have hfail0 : attemptFails acceptable (outcomes attempt) = true := by
      simpa using hfail 0 (by omega)
    have hshift : ∀ i, i < r → attemptFails acceptable (outcomes (attempt + 1 + i)) = true := by
      intro i hi
      have := hfail (i + 1) (by omega)
      rwa [show attempt + (i + 1) = attempt + 1 + i by omega] at this
    have hmaps : (List.range r).map (fun i => statusString (outcomes (attempt + 1 + i))) =
        (List.range r).map (fun i => statusString (outcomes (attempt + (i + 1)))) := by
      apply List.map_congr_left
      intro i _
      rw [show attempt + 1 + i = attempt + (i + 1) by omega]
    have hrange : (List.range (r + 1)).map
          (fun i => statusString (outcomes (attempt + i))) =
        statusString (outcomes attempt) ::
          (List.range r).map (fun i => statusString (outcomes (attempt + (i + 1)))) := by
      rw [List.range_succ_eq_map]
      simp [List.map_map, Function.comp]
    cases ho : outcomes attempt with
    | resp st =>
      have hnot : ¬(st < 400 ∨ st ∈ acceptable) := by
        rw [ho] at hfail0
        simp [attemptFails] at hfail0
        rintro (hlt2 | hmem2)
        · omega
        · exact hfail0.2 hmem2
      have hres := ih (attempt + 1) (errors ++ [toString st]) hshift
      rw [hmaps] at hres
      simp only [aenterGo, ho, hnot, if_false, if_neg hnot]
      rw [hres, hrange, ho]
      simp [statusString, List.append_assoc]
    | timeout =>
      have hres := ih (attempt + 1) (errors ++ ["timeout"]) hshift
      rw [hmaps] at hres
      simp only [aenterGo, ho]
      rw [hres, hrange, ho]
      simp [statusString, List.append_assoc]
    | exc m =>
      have hres := ih (attempt + 1) (errors ++ [m]) hshift
      rw [hmaps] at hres
      simp only [aenterGo, ho]
      rw [hres, hrange, ho]
      simp [statusString, List.append_assoc]

/-- C3: retry_get with budget m issues at most max(m, 1) attempts; if every
attempt before attempt N fails and attempt N (within the budget) produces a
response with status below 400 or in the acceptable set, that response is
returned without raising after exactly N attempts; if every attempt in the
budget fails, a single error is raised whose message aggregates every
observed status or failure string in attempt order. -/
theorem retry_get_spec (outcomes : Nat → NetOutcome) (acceptable : List Nat)
    (callString : String) (m : Nat) :
    (∀ s n, retry_get outcomes acceptable callString m = Except.ok (s, n) →
      1 ≤ n ∧ n ≤ max m 1) ∧
    (∀ N s, 1 ≤ N → N ≤ max m 1 →
      (∀ i, i + 1 < N → attemptFails acceptable (outcomes i) = true) →
      outcomes (N - 1) = NetOutcome.resp s →
      (s < 400 ∨ s ∈ acceptable) →
      retry_get outcomes acceptable callString m = Except.ok (s, N)) ∧
    ((∀ i, i < max m 1 → attemptFails acceptable (outcomes i) = true) →
      retry_get outcomes acceptable callString m =
        Except.error (aggregateMessage callString
          ((List.range (max m 1)).map (fun i => statusString (outcomes i))))) := by
  refine ⟨?_, ?_, ?_⟩
  · intro s n h
    have := aenterGo_ok_bounds outcomes acceptable callString (max m 1) 0 [] s n h
    omega
  · intro N s h1 h2 hfail hN hacc
    have hres := aenterGo_success outcomes acceptable callString (max m 1) 0 [] (N - 1) s
      (by omega)
      (fun i hi => by simpa using hfail i (by omega))
      (by simpa using hN) hacc
    rw [show (0 : Nat) + (N - 1) + 1 = N by omega] at hres
    exact hres
  · intro hfail
    have hres := aenterGo_allfail outcomes acceptable callString (max m 1) 0 []
      (fun i hi => by simpa using hfail i hi)
    simpa using hres

theorem retry_get_spec_witness :
    retry_get
      (fun i => match i with
        | 0 => NetOutcome.timeout
        | _ => NetOutcome.resp 200)
      [] "aio_session.get(url)" 3 = Except.ok (200, 2) :=
  (retry_get_spec
      (fun i => match i with
        | 0 => NetOutcome.timeout
        | _ => NetOutcome.resp 200)
      [] "aio_session.get(url)" 3).2.1 2 200 (by omega) (by omega)
    (fun i hi => by
      have h0 : i = 0 := by omega
      subst h0
      rfl)
    rfl (Or.inl (by omega))

end Http

namespace Hashing

/-- One entry of the algorithm preference table of utils/hashing.py: the key
looked up in a digest map, the hashlib constructor name, and the keyword
arguments handed to that constructor. -/
structure AlgorithmData where
  name : String
  algorithm : String
  kwargs : List (String × Nat)
deriving DecidableEq

/-- The fixed preference list _PREFERRED_HASHES: sha256 first, then blake2b
with a 32-byte digest size under the key blake2b_256. -/
def preferredHashes : List AlgorithmData :=
  [⟨"sha256", "sha256", []⟩, ⟨"blake2b_256", "blake2b", [("digest_size", 32)]⟩]

/-- utils/hashing.verify_hash.  The chunked file read feeding a streaming
hashlib object is external I/O and is modelled by a digest oracle:
fileDigest algorithm kwargs is the hex digest hashlib computes for the file
with that algorithm and constructor keyword arguments.  verify_hash compares
it with the expected digest and returns a boolean, never raising on a
mismatch. -/
def verify_hash (fileDigest : String → List (String × Nat) → String)
    (hash_digest : String) (algorithm : String)
    (algorithm_kwargs : List (String × Nat)) : Bool :=
  fileDigest algorithm algorithm_kwargs == hash_digest

/-- The loop of utils/hashing.verify_a_hash over the preference list:
delegate to verify_hash on the first listed algorithm whose name is a key of
hash_digests; if no preferred name is present, return false. -/
def verifyAHashLoop (fileDigest : String → List (String × Nat) → String)
    (hash_digests : List (String × String)) : List AlgorithmData → Bool
  | [] => false
  | ad :: rest =>
    match hash_digests.lookup ad.name with
    | some digest => verify_hash fileDigest digest ad.algorithm ad.kwargs
    | none => verifyAHashLoop fileDigest hash_digests rest

/-- utils/hashing.verify_a_hash, with the digest map as an association list
(Python dict keys are unique, which we do not need to assume). -/
def verify_a_hash (fileDigest : String → List (String × Nat) → String)
    (hash_digests : List (String × String)) : Bool :=
  verifyAHashLoop fileDigest hash_digests preferredHashes

/-- A key absent from every pair of an association list looks up to none. -/
theorem lookup_eq_none_of_all {l : List (String × String)} {k : String}
    (h : ∀ kv ∈ l, kv.1 ≠ k) : l.lookup k = none := by
  induction l with
  | nil => rfl
  | cons a t ih =>
    have ha : (k == a.1) = false := by
      have := h a (List.mem_cons_self a t)
      simp [beq_eq_false_iff_ne]
      exact fun he => this he.symm
    simp [List.lookup, ha]
    intro x y hxy he
    exact h (x, y) (List.mem_cons_of_mem a hxy) he.symm

/-- C5: verify_a_hash walks the fixed preference list (sha256 first, then
blake2b_256) and delegates to verify_hash on the first listed algorithm whose
name is a key of the digest map, ignoring all other entries: with both
preferred keys present, only the sha256 digest correct and the blake2b_256
digest wrong, it returns true; with a map containing only keys outside the
preference list, it returns false. -/
theorem verify_a_hash_preference (fileDigest : String → List (String × Nat) → String)
    (hash_digests : List (String × String)) :
    (∀ d1 d2, hash_digests.lookup "sha256" = some d1 →
      hash_digests.lookup "blake2b_256" = some d2 →
      d1 = fileDigest "sha256" [] →
      d2 ≠ fileDigest "blake2b" [("digest_size", 32)] →
      verify_a_hash fileDigest hash_digests = true) ∧
    ((∀ kv ∈ hash_digests, kv.1 ≠ "sha256" ∧ kv.1 ≠ "blake2b_256") →
      verify_a_hash fileDigest hash_digests = false) := by
  constructor
  · intro d1 d2 h1 h2 hgood hbad
    simp [verify_a_hash, verifyAHashLoop, preferredHashes, h1, verify_hash, hgood]
  · intro hout
    have hs : hash_digests.lookup "sha256" = none :=
      lookup_eq_none_of_all (fun kv hkv => (hout kv hkv).1)
    have hb : hash_digests.lookup "blake2b_256" = none :=
      lookup_eq_none_of_all (fun kv hkv => (hout kv hkv).2)
    simp [verify_a_hash, verifyAHashLoop, preferredHashes, hs, hb]

theorem verify_a_hash_preference_witness :
    verify_a_hash (fun alg _ => if alg == "sha256" then "good" else "other")
      [("sha256", "good"), ("blake2b_256", "bad")] = true ∧
    verify_a_hash (fun alg _ => if alg == "sha256" then "good" else "other")
      [("md5", "x")] = false :=
  ⟨(verify_a_hash_preference
      (fun alg _ => if alg == "sha256" then "good" else "other")
      [("sha256", "good"), ("blake2b_256", "bad")]).1 "good" "bad"
      (by decide) (by decide) (by decide) (by decide),
   (verify_a_hash_preference
      (fun alg _ => if alg == "sha256" then "good" else "other")
      [("md5", "x")]).2 (by decide)⟩

end Hashing

namespace Galaxy

/-- The fields of the release information that CollectionDownloader.download
reads: the artifact filename, the registry-reported sha256 digest, and the
download URL. -/
structure ReleaseArtifact where
  filename : String
  sha256 : String
  download_url : String
deriving DecidableEq

/-- Result of one network interaction through retry_get: a normal response,
a 404 response (passed through because 404 is in the acceptable status set of
these call sites), or the RuntimeError retry_get raises when its budget is
exhausted. -/
inductive NetResult (α : Type) where
  | ok (a : α)
  | notFound
  | netFail
deriving DecidableEq

/-- Environment of one CollectionDownloader.download call: the relevant
configuration and the outcomes of its external interactions.  The field
trust_collection_cache is the library-context flag documented in
schemas/context.py; the body of download never reads it, which the theorems
below make visible.  cacheList is what os.listdir returns for the collection
cache directory; cachedHashOk is the result verify_hash would give for the
cached copy against the reported sha256; downloadedHashOk likewise for the
freshly written download. -/
structure CDEnv where
  trust_collection_cache : Bool
  collection_cache : Option String
  cacheList : List String
  releaseFetch : NetResult ReleaseArtifact
  cachedHashOk : Bool
  artifactGet : NetResult Unit
  downloadedHashOk : Bool
  download_dir : String

/-- Observable side effects of one download call, counted per kind:
get_release_info requests, artifact GET requests, digest checks of the cached
copy, digest checks of the fresh download, and copies of a fresh download
into the cache. -/
structure CDEffects where
  releaseInfoCalls : Nat
  artifactGets : Nat
  cacheDigestChecks : Nat
  freshDigestChecks : Nat
  cacheWrites : Nat
deriving DecidableEq

/-- Total network requests issued by the call. -/
def CDEffects.networkCalls (e : CDEffects) : Nat :=
  e.releaseInfoCalls + e.artifactGets

/-- Errors raised by CollectionDownloader.download. -/
inductive CDErr where
  | noSuchCollection
  | downloadFailure
  | runtimeError
deriving DecidableEq

/-- The fresh-download tail of CollectionDownloader.download: GET the release
URL (404 raises NoSuchCollection), stream the body to download_filename,
verify the sha256 digest and raise DownloadFailure on mismatch, and only then
copy the verified file into the collection cache when one is configured. -/
def downloadFresh (env : CDEnv) (download_filename : String) (eff : CDEffects) :
    Except CDErr String × CDEffects :=
  let eff1 : CDEffects :=
    ⟨eff.releaseInfoCalls, eff.artifactGets + 1, eff.cacheDigestChecks,
      eff.freshDigestChecks, eff.cacheWrites⟩
  match env.artifactGet with
  | NetResult.netFail => (Except.error CDErr.runtimeError, eff1)
  | NetResult.notFound => (Except.error CDErr.noSuchCollection, eff1)
  | NetResult.ok _ =>
    let eff2 : CDEffects :=
      ⟨eff1.releaseInfoCalls, eff1.artifactGets, eff1.cacheDigestChecks,
        eff1.freshDigestChecks + 1, eff1.cacheWrites⟩
    if env.downloadedHashOk then
      match env.collection_cache with
      | some _ =>
        (Except.ok download_filename,
          ⟨eff2.releaseInfoCalls, eff2.artifactGets, eff2.cacheDigestChecks,
            eff2.freshDigestChecks, eff2.cacheWrites + 1⟩)
      | none => (Except.ok download_filename, eff2)
    else (Except.error CDErr.downloadFailure, eff2)

/-- CollectionDownloader.download: fetch the release information (one network
request), and when a collection cache is configured and already lists the
artifact filename, digest-check the cached copy and reuse it on success;
otherwise download afresh via downloadFresh. -/
def download (env : CDEnv) : Except CDErr String × CDEffects :=
  match env.releaseFetch with
  | NetResult.netFail => (Except.error CDErr.runtimeError, ⟨1, 0, 0, 0, 0⟩)
  | NetResult.notFound => (Except.error CDErr.noSuchCollection, ⟨1, 0, 0, 0, 0⟩)
  | NetResult.ok art =>
    let download_filename := env.download_dir ++ "/" ++ art.filename
    match env.collection_cache with
    | some _ =>
      if art.filename ∈ env.cacheList then
        if env.cachedHashOk then
          (Except.ok download_filename, ⟨1, 0, 1, 0, 0⟩)
        else downloadFresh env download_filename ⟨1, 0, 1, 0, 0⟩
      else downloadFresh env download_filename ⟨1, 0, 0, 0, 0⟩
    | none => downloadFresh env download_filename ⟨1, 0, 0, 0, 0⟩

/-- C2 (evaluation of the code at the claimed scenario): with the trusting
cache mode enabled and a file with the deterministic cache name already in
the collection cache, download still issues the get_release_info network
request and still digest-checks the cached file before reusing it, and it
behaves identically with the flag cleared: CollectionDownloader.download
never consults trust_collection_cache, contradicting the claimed zero network
calls and absent digest check. -/
theorem download_ignores_trust_collection_cache :
    download
      { trust_collection_cache := true
        collection_cache := some "cache"
        cacheList := ["community-dns-1.0.0.tar.gz"]
        releaseFetch := NetResult.ok ⟨"community-dns-1.0.0.tar.gz", "digest", "url"⟩
        cachedHashOk := true
        artifactGet := NetResult.ok ()
        downloadedHashOk := true
        download_dir := "dl" } =
      (Except.ok "dl/community-dns-1.0.0.tar.gz", ⟨1, 0, 1, 0, 0⟩) ∧
    download
      { trust_collection_cache := false
        collection_cache := some "cache"
        cacheList := ["community-dns-1.0.0.tar.gz"]
        releaseFetch := NetResult.ok ⟨"community-dns-1.0.0.tar.gz", "digest", "url"⟩
        cachedHashOk := true
        artifactGet := NetResult.ok ()
        downloadedHashOk := true
        download_dir := "dl" } =
      (Except.ok "dl/community-dns-1.0.0.tar.gz", ⟨1, 0, 1, 0, 0⟩) ∧
    CDEffects.networkCalls ⟨1, 0, 1, 0, 0⟩ = 1 :=
  ⟨rfl, rfl, rfl⟩

/-- C7: when the freshly downloaded bytes fail sha256 verification, download
raises DownloadFailure at once, with exactly one artifact GET issued in the
call, exactly one digest check of the fresh download, and no write of the
file into the collection cache. -/
theorem download_digest_mismatch_fatal (env : CDEnv) (art : ReleaseArtifact)
    (hrel : env.releaseFetch = NetResult.ok art)
    (hget : env.artifactGet = NetResult.ok ())
    (hbad : env.downloadedHashOk = false)
    (hnocache : env.collection_cache = none ∨ art.filename ∉ env.cacheList ∨
      env.cachedHashOk = false) :
    ∃ eff, download env = (Except.error CDErr.downloadFailure, eff) ∧
      eff.artifactGets = 1 ∧ eff.cacheWrites = 0 ∧ eff.freshDigestChecks = 1 := by
  have hfresh : ∀ (fn : String) (eff : CDEffects),
      downloadFresh env fn eff =
        (Except.error CDErr.downloadFailure,
          ⟨eff.releaseInfoCalls, eff.artifactGets + 1, eff.cacheDigestChecks,
            eff.freshDigestChecks + 1, eff.cacheWrites⟩) := by
    intro fn eff
    simp [downloadFresh, hget, hbad]
  cases hcc : env.collection_cache with
  | none =>
    refine ⟨⟨1, 1, 0, 1, 0⟩, ?_, rfl, rfl, rfl⟩
    simp [download, hrel, hcc, hfresh]
  | some c =>
    by_cases hmem : art.filename ∈ env.cacheList
    · have hch : env.cachedHashOk = false := by
        rcases hnocache with h | h | h
        · rw [hcc] at h; cases h
        · exact absurd hmem h
        · exact h
      refine ⟨⟨1, 1, 1, 1, 0⟩, ?_, rfl, rfl, rfl⟩
      simp [download, hrel, hcc, hmem, hch, hfresh]
    · refine ⟨⟨1, 1, 0, 1, 0⟩, ?_, rfl, rfl, rfl⟩
      simp [download, hrel, hcc, hmem, hfresh]

theorem download_digest_mismatch_fatal_witness :
    ∃ eff, download
      { trust_collection_cache := false
        collection_cache := none
        cacheList := []
        releaseFetch := NetResult.ok ⟨"ns-col-1.0.0.tar.gz", "d", "u"⟩
        cachedHashOk := false
        artifactGet := NetResult.ok ()
        downloadedHashOk := false
        download_dir := "dl" } = (Except.error CDErr.downloadFailure, eff) ∧
      eff.artifactGets = 1 ∧ eff.cacheWrites = 0 ∧ eff.freshDigestChecks = 1 :=
  download_digest_mismatch_fatal _ ⟨"ns-col-1.0.0.tar.gz", "d", "u"⟩
    rfl rfl rfl (Or.inl rfl)

end Galaxy

namespace AnsibleCore

/-- One file record of a pypi release: filename, download URL, and the digest
map offered by the index. -/
structure FileRecord where
  filename : String
  url : String
  digests : List (String × String)
deriving DecidableEq

/-- The two accepted sdist filename spellings for a version of ansible-core,
in the order AnsibleCorePyPiClient.retrieve builds them: the
setuptools-normalized underscore spelling first, then the hyphen
spelling. -/
def tarFilenames (ansible_core_version : String) : List String :=
  ["ansible_core-" ++ ansible_core_version ++ ".tar.gz",
   "ansible-core-" ++ ansible_core_version ++ ".tar.gz"]

/-- Environment of one AnsibleCorePyPiClient.retrieve call: configuration
from the library context and the outcomes of its external interactions.
cacheFiles lists the filenames f for which os.path.isfile finds the cached
path; releases is the pypi releases map; pypiFetchOk is false when the
get_release_info request exhausts its retries (retry_get raises);
cachedHashOk is the verify_a_hash result for the cached copy; artifactGetOk
is false when the sdist GET exhausts its retries. -/
structure PyPiEnv where
  ansible_core_cache : Option String
  trust_ansible_core_cache : Bool
  cacheFiles : List String
  releases : List (String × List FileRecord)
  pypiFetchOk : Bool
  cachedHashOk : Bool
  artifactGetOk : Bool
  download_dir : String

/-- Observable side effects of one retrieve call: release-information
requests, sdist GET requests, digest checks of the cached copy, writes of a
fresh download into the cache, and copies out of the cache to the download
directory. -/
structure PyPiEffects where
  releaseInfoCalls : Nat
  artifactGets : Nat
  cacheDigestChecks : Nat
  cacheWrites : Nat
  copiesFromCache : Nat
deriving DecidableEq

/-- Errors raised by retrieve: UnknownVersion when no file record matches the
expected filenames, KeyError when the requested version is not a key of the
releases map, and the RuntimeError of an exhausted retry_get. -/
inductive PyPiErr where
  | unknownVersion
  | keyError
  | runtimeError
deriving DecidableEq

/-- The fresh-download tail of retrieve: GET the sdist URL, stream it to
tar_path, and store a copy into the ansible-core cache when one is
configured.  Note the fresh download is not digest-checked here, matching the
source. -/
def retrieveFresh (env : PyPiEnv) (tar_path : String) (eff : PyPiEffects) :
    Except PyPiErr String × PyPiEffects :=
  let eff1 : PyPiEffects :=
    ⟨eff.releaseInfoCalls, eff.artifactGets + 1, eff.cacheDigestChecks,
      eff.cacheWrites, eff.copiesFromCache⟩
  if env.artifactGetOk then
    match env.ansible_core_cache with
    | some _ =>
      (Except.ok tar_path,
        ⟨eff1.releaseInfoCalls, eff1.artifactGets, eff1.cacheDigestChecks,
          eff1.cacheWrites + 1, eff1.copiesFromCache⟩)
    | none => (Except.ok tar_path, eff1)
  else (Except.error PyPiErr.runtimeError, eff1)

/-- The cache-or-download tail of retrieve once a file record has been
resolved: when a cache is configured and the record offers a sha256 digest
and the cache holds the file, digest-check the cached copy with verify_a_hash
and reuse it on success; in every other case download afresh. -/
def retrieveCached (env : PyPiEnv) (r : FileRecord) :
    Except PyPiErr String × PyPiEffects :=
  let tar_path := env.download_dir ++ "/" ++ r.filename
  match env.ansible_core_cache with
  | some _ =>
    if (r.digests.lookup "sha256").isSome then
      if r.filename ∈ env.cacheFiles then
        if env.cachedHashOk then (Except.ok tar_path, ⟨1, 0, 1, 0, 1⟩)
        else retrieveFresh env tar_path ⟨1, 0, 1, 0, 0⟩
      else retrieveFresh env tar_path ⟨1, 0, 0, 0, 0⟩
    else retrieveFresh env tar_path ⟨1, 0, 0, 0, 0⟩
  | none => retrieveFresh env tar_path ⟨1, 0, 0, 0, 0⟩

/-- AnsibleCorePyPiClient.retrieve: with a trusted cache, copy the first
cached filename spelling that exists and return without any network
interaction; otherwise fetch the releases map (one request), index it with
the requested version (KeyError when absent), resolve the first file record
matching the expected filename spellings (UnknownVersion when none does),
and continue with retrieveCached. -/
def retrieve (env : PyPiEnv) (ansible_core_version : String) :
    Except PyPiErr String × PyPiEffects :=
  let tar_filenames := tarFilenames ansible_core_version
  let trusted : Option String :=
    match env.ansible_core_cache with
    | some _ =>
      if env.trust_ansible_core_cache then
        tar_filenames.find? (fun fn => decide (fn ∈ env.cacheFiles))
      else none
    | none => none
  match trusted with
  | some fn => (Except.ok (env.download_dir ++ "/" ++ fn), ⟨0, 0, 0, 0, 1⟩)
  | none =>
    if env.pypiFetchOk then
      match env.releases.lookup ansible_core_version with
      | none => (Except.error PyPiErr.keyError, ⟨1, 0, 0, 0, 0⟩)
      | some recs =>
        match recs.find? (fun r => decide (r.filename ∈ tar_filenames)) with
        | none => (Except.error PyPiErr.unknownVersion, ⟨1, 0, 0, 0, 0⟩)
        | some r => retrieveCached env r
    else (Except.error PyPiErr.runtimeError, ⟨1, 0, 0, 0, 0⟩)

theorem retrieveFresh_fst_ok (env : PyPiEnv) (tp : String) (eff : PyPiEffects)
    (hg : env.artifactGetOk = true) :
    (retrieveFresh env tp eff).1 = Except.ok tp := by
  cases hcc : env.ansible_core_cache <;> simp [retrieveFresh, hg, hcc]

theorem retrieveFresh_fst (env : PyPiEnv) (tp : String) (eff : PyPiEffects) :
    (retrieveFresh env tp eff).1 = Except.ok tp ∨
    (retrieveFresh env tp eff).1 = Except.error PyPiErr.runtimeError := by
  by_cases hg : env.artifactGetOk = true
  · exact Or.inl (retrieveFresh_fst_ok env tp eff hg)
  · have hg2 : env.artifactGetOk = false := by simpa using hg
    exact Or.inr (by simp [retrieveFresh, hg2])

theorem retrieveFresh_cacheDigestChecks (env : PyPiEnv) (tp : String)
    (eff : PyPiEffects) :
    (retrieveFresh env tp eff).2.cacheDigestChecks = eff.cacheDigestChecks := by
  by_cases hg : env.artifactGetOk = true
  · cases hcc : env.ansible_core_cache <;> simp [retrieveFresh, hg, hcc]
  · have hg2 : env.artifactGetOk = false := by simpa using hg
    simp [retrieveFresh, hg2]

theorem retrieveCached_fst_ok (env : PyPiEnv) (r : FileRecord)
    (hg : env.artifactGetOk = true) :
    (retrieveCached env r).1 = Except.ok (env.download_dir ++ "/" ++ r.filename) := by
  cases hcc : env.ansible_core_cache with
  | none => simp [retrieveCached, hcc, retrieveFresh_fst_ok env _ _ hg]
  | some c =>
    by_cases hsha : (r.digests.lookup "sha256").isSome = true
    · by_cases hmem : r.filename ∈ env.cacheFiles
      · by_cases hch : env.cachedHashOk = true
        · simp [retrieveCached, hcc, hsha, hmem, hch]
        · have hch2 : env.cachedHashOk = false := by simpa using hch
          simp [retrieveCached, hcc, hsha, hmem, hch2,
            retrieveFresh_fst_ok env _ _ hg]
      · simp [retrieveCached, hcc, hsha, hmem, retrieveFresh_fst_ok env _ _ hg]
    · have hsha2 : (r.digests.lookup "sha256").isSome = false := Bool.eq_false_iff.mpr hsha
      simp [retrieveCached, hcc, hsha2, retrieveFresh_fst_ok env _ _ hg]

theorem retrieveCached_fst (env : PyPiEnv) (r : FileRecord) :
    (retrieveCached env r).1 = Except.ok (env.download_dir ++ "/" ++ r.filename) ∨
    (retrieveCached env r).1 = Except.error PyPiErr.runtimeError := by
  cases hcc : env.ansible_core_cache with
  | none => simpa [retrieveCached, hcc] using retrieveFresh_fst env _ _
  | some c =>
    by_cases hsha : (r.digests.lookup "sha256").isSome = true
    · by_cases hmem : r.filename ∈ env.cacheFiles
      · by_cases hch : env.cachedHashOk = true
        · exact Or.inl (by simp [retrieveCached, hcc, hsha, hmem, hch])
        · have hch2 : env.cachedHashOk = false := by simpa using hch
          simpa [retrieveCached, hcc, hsha, hmem, hch2] using retrieveFresh_fst env _ _
      · simpa [retrieveCached, hcc, hsha, hmem] using retrieveFresh_fst env _ _
    · have hsha2 : (r.digests.lookup "sha256").isSome = false := Bool.eq_false_iff.mpr hsha
      simpa [retrieveCached, hcc, hsha2] using retrieveFresh_fst env _ _

/-- With the trusting shortcut disabled and the releases request succeeding,
retrieve reduces to lookup, record resolution and retrieveCached. -/
theorem retrieve_untrusted (env : PyPiEnv) (version : String)
    (htrust : env.trust_ansible_core_cache = false)
    (hfetch : env.pypiFetchOk = true) :
    retrieve env version =
      match env.releases.lookup version with
      | none => (Except.error PyPiErr.keyError, ⟨1, 0, 0, 0, 0⟩)
      | some recs =>
        match recs.find? (fun r => decide (r.filename ∈ tarFilenames version)) with
        | none => (Except.error PyPiErr.unknownVersion, ⟨1, 0, 0, 0, 0⟩)
        | some r => retrieveCached env r := by
  cases hcc : env.ansible_core_cache <;> simp [retrieve, htrust, hfetch, hcc]

/-- C8 counterexample: a release whose file list matches BOTH expected
filename spellings, so that exactly-one-match is violated, yet retrieve
resolves the first matching record and returns successfully instead of
raising UnknownVersion. -/
theorem retrieve_two_matching_records_ok :
    retrieve
      { ansible_core_cache := none
        trust_ansible_core_cache := false
        cacheFiles := []
        releases := [("2.15.0",
          [⟨"ansible_core-2.15.0.tar.gz", "u1", [("sha256", "d1")]⟩,
           ⟨"ansible-core-2.15.0.tar.gz", "u2", [("sha256", "d2")]⟩])]
        pypiFetchOk := true
        cachedHashOk := false
        artifactGetOk := true
        download_dir := "dl" } "2.15.0" =
      (Except.ok "dl/ansible_core-2.15.0.tar.gz", ⟨1, 1, 0, 0, 0⟩) ∧
    (([⟨"ansible_core-2.15.0.tar.gz", "u1", [("sha256", "d1")]⟩,
       ⟨"ansible-core-2.15.0.tar.gz", "u2", [("sha256", "d2")]⟩] : List FileRecord).filter
        (fun r => decide (r.filename ∈ tarFilenames "2.15.0"))).length = 2 :=
  ⟨rfl, rfl⟩

/-- C8 amended: for a version present in the release map, with the
trusting-cache shortcut disabled and the releases request succeeding,
retrieve raises UnknownVersion exactly when no file record matches the
expected filename set; when at least one matches, the first matching record
is resolved and its filename shapes the returned path. -/
theorem retrieve_unknown_version_iff (env : PyPiEnv) (version : String)
    (recs : List FileRecord)
    (htrust : env.trust_ansible_core_cache = false)
    (hfetch : env.pypiFetchOk = true)
    (hrel : env.releases.lookup version = some recs) :
    ((retrieve env version).1 = Except.error PyPiErr.unknownVersion ↔
      recs.find? (fun r => decide (r.filename ∈ tarFilenames version)) = none) ∧
    (∀ r, recs.find? (fun r => decide (r.filename ∈ tarFilenames version)) = some r →
      env.artifactGetOk = true →
      (retrieve env version).1 =
        Except.ok (env.download_dir ++ "/" ++ r.filename)) := by
  rw [retrieve_untrusted env version htrust hfetch]
  constructor
  · cases hfind : recs.find? (fun r => decide (r.filename ∈ tarFilenames version)) with
    | none => simp [hrel, hfind]
    | some r =>
      simp only [hrel, hfind]
      constructor
      · intro h
        rcases retrieveCached_fst env r with hc | hc
        · rw [hc] at h; cases h
        · rw [hc] at h; cases h
      · intro h; cases h
  · intro r hfind hg
    simp only [hrel, hfind]
    exact retrieveCached_fst_ok env r hg

theorem retrieve_unknown_version_iff_witness :
    ((retrieve
      { ansible_core_cache := none
        trust_ansible_core_cache := false
        cacheFiles := []
        releases := [("2.14.0", [⟨"other-file.tar.gz", "u", []⟩])]
        pypiFetchOk := true
        cachedHashOk := false
        artifactGetOk := true
        download_dir := "dl" } "2.14.0").1 = Except.error PyPiErr.unknownVersion ↔
      ([⟨"other-file.tar.gz", "u", []⟩] : List FileRecord).find?
        (fun r => decide (r.filename ∈ tarFilenames "2.14.0")) = none) ∧
    (∀ r, ([⟨"other-file.tar.gz", "u", []⟩] : List FileRecord).find?
        (fun r => decide (r.filename ∈ tarFilenames "2.14.0")) = some r →
      ({ ansible_core_cache := none
         trust_ansible_core_cache := false
         cacheFiles := []
         releases := [("2.14.0", [⟨"other-file.tar.gz", "u", []⟩])]
         pypiFetchOk := true
         cachedHashOk := false
         artifactGetOk := true
         download_dir := "dl" } : PyPiEnv).artifactGetOk = true →
      (retrieve
        { ansible_core_cache := none
          trust_ansible_core_cache := false
          cacheFiles := []
          releases := [("2.14.0", [⟨"other-file.tar.gz", "u", []⟩])]
          pypiFetchOk := true
          cachedHashOk := false
          artifactGetOk := true
          download_dir := "dl" } "2.14.0").1 =
        Except.ok ("dl" ++ "/" ++ r.filename)) :=
  retrieve_unknown_version_iff
    { ansible_core_cache := none
      trust_ansible_core_cache := false
      cacheFiles := []
      releases := [("2.14.0", [⟨"other-file.tar.gz", "u", []⟩])]
      pypiFetchOk := true
      cachedHashOk := false
      artifactGetOk := true
      download_dir := "dl" } "2.14.0" [⟨"other-file.tar.gz", "u", []⟩]
    rfl rfl rfl

/-- C10: with the trusting shortcut disabled, retrieve considers the cached
file for digest-verified reuse only when the resolved record's digest map has
a sha256 key: any digest check of the cached copy implies the key is present;
and when the digest map offers only a blake2b_256 digest, the cached file is
ignored and the artifact is downloaded afresh (one sdist GET, no cache digest
check), although verify_a_hash itself would have consulted exactly that
blake2b_256 digest. -/
theorem retrieve_cache_requires_sha256 (env : PyPiEnv) (version : String)
    (recs : List FileRecord) (r : FileRecord) (d : String)
    (htrust : env.trust_ansible_core_cache = false)
    (hfetch : env.pypiFetchOk = true)
    (hrel : env.releases.lookup version = some recs)
    (hfind : recs.find? (fun r => decide (r.filename ∈ tarFilenames version)) = some r) :
    ((retrieve env version).2.cacheDigestChecks ≥ 1 →
      (r.digests.lookup "sha256").isSome = true) ∧
    (∀ c, env.ansible_core_cache = some c → r.digests = [("blake2b_256", d)] →
      r.filename ∈ env.cacheFiles → env.artifactGetOk = true →
      retrieve env version =
        (Except.ok (env.download_dir ++ "/" ++ r.filename), ⟨1, 1, 0, 1, 0⟩)) ∧
    (∀ fileDigest : String → List (String × Nat) → String,
      Hashing.verify_a_hash fileDigest [("blake2b_256", d)] =
        (fileDigest "blake2b" [("digest_size", 32)] == d)) := by
  refine ⟨?_, ?_, fun fileDigest => rfl⟩
  · intro hge
    by_contra hno
    have hnone : (r.digests.lookup "sha256").isSome = false := Bool.eq_false_iff.mpr hno
    have hzero : (retrieve env version).2.cacheDigestChecks = 0 := by
      rw [retrieve_untrusted env version htrust hfetch]
      simp only [hrel, hfind]
      cases hcc : env.ansible_core_cache with
      | none => simp [retrieveCached, hcc, retrieveFresh_cacheDigestChecks]
      | some c => simp [retrieveCached, hcc, hnone, retrieveFresh_cacheDigestChecks]
    omega
  · intro c hcc hdig hmem hg
    have hlk : (List.lookup "sha256" [("blake2b_256", d)]).isSome = false := rfl
    rw [retrieve_untrusted env version htrust hfetch]
    simp only [hrel, hfind]
    simp [retrieveCached, hcc, hdig, hlk, retrieveFresh, hg]

theorem retrieve_cache_requires_sha256_witness :
    ((retrieve
      { ansible_core_cache := some "cache"
        trust_ansible_core_cache := false
        cacheFiles := ["ansible_core-2.15.0.tar.gz"]
        releases := [("2.15.0",
          [⟨"ansible_core-2.15.0.tar.gz", "u", [("blake2b_256", "bd")]⟩])]
        pypiFetchOk := true
        cachedHashOk := true
        artifactGetOk := true
        download_dir := "dl" } "2.15.0").2.cacheDigestChecks ≥ 1 →
      ((⟨"ansible_core-2.15.0.tar.gz", "u", [("blake2b_256", "bd")]⟩ :
        FileRecord).digests.lookup "sha256").isSome = true) ∧
    (∀ c, (some "cache" : Option String) = some c →
      (⟨"ansible_core-2.15.0.tar.gz", "u", [("blake2b_256", "bd")]⟩ :
        FileRecord).digests = [("blake2b_256", "bd")] →
      "ansible_core-2.15.0.tar.gz" ∈ ["ansible_core-2.15.0.tar.gz"] →
      true = true →
      retrieve
        { ansible_core_cache := some "cache"
          trust_ansible_core_cache := false
          cacheFiles := ["ansible_core-2.15.0.tar.gz"]
          releases := [("2.15.0",
            [⟨"ansible_core-2.15.0.tar.gz", "u", [("blake2b_256", "bd")]⟩])]
          pypiFetchOk := true
          cachedHashOk := true
          artifactGetOk := true
          download_dir := "dl" } "2.15.0" =
        (Except.ok ("dl" ++ "/" ++ "ansible_core-2.15.0.tar.gz"), ⟨1, 1, 0, 1, 0⟩)) ∧
    (∀ fileDigest : String → List (String × Nat) → String,
      Hashing.verify_a_hash fileDigest [("blake2b_256", "bd")] =
        (fileDigest "blake2b" [("digest_size", 32)] == "bd")) :=
  retrieve_cache_requires_sha256
    { ansible_core_cache := some "cache"
      trust_ansible_core_cache := false
      cacheFiles := ["ansible_core-2.15.0.tar.gz"]
      releases := [("2.15.0",
        [⟨"ansible_core-2.15.0.tar.gz", "u", [("blake2b_256", "bd")]⟩])]
      pypiFetchOk := true
      cachedHashOk := true
      artifactGetOk := true
      download_dir := "dl" } "2.15.0"
    [⟨"ansible_core-2.15.0.tar.gz", "u", [("blake2b_256", "bd")]⟩]
    ⟨"ansible_core-2.15.0.tar.gz", "u", [("blake2b_256", "bd")]⟩ "bd"
    rfl rfl rfl (by decide)

/-- Model of packaging.version.Version as used by ansible_core.py: release
numbers major.minor.micro plus an optional development suffix devN; the
public version string ends in .devN exactly when dev is present, which is
what the _version_is_devel regular expression tests. -/
structure PypiVer where
  major : Nat
  minor : Nat
  micro : Nat
  dev : Option Nat
deriving DecidableEq

/-- A caller-supplied ansible-core source tree, reduced to what
_get_source_version observes: the parseable version assigned to __version__
in lib/ansible/release.py, or none when the file is missing or unreadable or
no version assignment is found (raising inside _get_source_version, which
the callers turn into False). -/
structure SourceTree where
  releasePyVersion : Option PypiVer
deriving DecidableEq

/-- ansible_core._get_source_version with its exceptional outcomes folded
into the option. -/
def getSourceVersion (tree : SourceTree) : Option PypiVer :=
  tree.releasePyVersion

/-- ansible_core._version_is_devel: the public version string matches the
devN-suffix pattern. -/
def versionIsDevel (v : PypiVer) : Bool := v.dev.isSome

/-- ansible_core.source_is_devel. -/
def source_is_devel : Option SourceTree → Bool
  | none => false
  | some t =>
    match getSourceVersion t with
    | none => false
    | some v => versionIsDevel v

/-- ansible_core.source_is_correct_version: the source declares the same
major and minor as the requested version and a micro at least as large;
false when no source is given or its version cannot be read. -/
def source_is_correct_version : Option SourceTree → PypiVer → Bool
  | none, _ => false
  | some t, want =>
    match getSourceVersion t with
    | none => false
    | some v =>
      v.major == want.major && v.minor == want.minor &&
        decide (want.micro ≤ v.micro)

/-- Requested version selector of get_ansible_core. -/
inductive VersionSelector where
  | develSelector
  | latestSelector
  | exactVersion (version : PypiVer)
deriving DecidableEq

/-- How get_ansible_core obtains the artifact. -/
inductive CoreAction where
  | sdistFromLocalSource
  | sdistFromGitClone
  | downloadFromPyPI (version : PypiVer)
deriving DecidableEq

/-- The decision structure of ansible_core.get_ansible_core: which artifact
source is used for a requested selector.  latestOnPyPI stands for the result
of get_latest_version when the selector is the latest marker; the sdist
build and the pypi retrieval themselves are modelled separately. -/
def get_ansible_core (sel : VersionSelector) (src : Option SourceTree)
    (latestOnPyPI : PypiVer) : CoreAction :=
  match sel with
  | VersionSelector.develSelector =>
    if source_is_devel src then CoreAction.sdistFromLocalSource
    else CoreAction.sdistFromGitClone
  | VersionSelector.latestSelector =>
    if source_is_correct_version src latestOnPyPI then CoreAction.sdistFromLocalSource
    else CoreAction.downloadFromPyPI latestOnPyPI
  | VersionSelector.exactVersion v =>
    if source_is_correct_version src v then CoreAction.sdistFromLocalSource
    else CoreAction.downloadFromPyPI v

/-- The compatibility test succeeds exactly when a source tree is given, its
version parses, and it matches the requested major.minor with micro at least
the requested one. -/
theorem source_is_correct_version_iff (src : Option SourceTree) (v : PypiVer) :
    source_is_correct_version src v = true ↔
      ∃ t sv, src = some t ∧ t.releasePyVersion = some sv ∧
        sv.major = v.major ∧ sv.minor = v.minor ∧ v.micro ≤ sv.micro := by
  cases src with
  | none => simp [source_is_correct_version]
  | some t =>
    cases hv : t.releasePyVersion with
    | none => simp [source_is_correct_version, getSourceVersion, hv]
    | some sv =>
      simp only [source_is_correct_version, getSourceVersion, hv,
        Bool.and_eq_true, beq_iff_eq, decide_eq_true_eq]
      constructor
      · rintro ⟨⟨h1, h2⟩, h3⟩
        exact ⟨t, sv, rfl, hv, h1, h2, h3⟩
      · rintro ⟨t2, sv2, ht2, hsv2, h1, h2, h3⟩
        have ht : t2 = t := (Option.some_inj.mp ht2).symm
        subst ht
        have hsv : sv2 = sv := Option.some_inj.mp (hsv2.symm.trans hv)
        subst hsv
        exact ⟨⟨h1, h2⟩, h3⟩

/-- C9: with an exact requested version, get_ansible_core builds an sdist
from the caller-supplied source tree instead of downloading exactly when the
tree is present and declares a parseable version with the requested major and
minor and a micro at least the requested one; in every other case, including
a missing or unreadable release.py, source_is_correct_version is false and
the artifact is resolved via the package index. -/
theorem get_ansible_core_exact_source_choice (src : Option SourceTree)
    (v latestOnPyPI : PypiVer) :
    (get_ansible_core (VersionSelector.exactVersion v) src latestOnPyPI =
        CoreAction.sdistFromLocalSource ↔
      ∃ t sv, src = some t ∧ t.releasePyVersion = some sv ∧
        sv.major = v.major ∧ sv.minor = v.minor ∧ v.micro ≤ sv.micro) ∧
    (source_is_correct_version src v = false →
      get_ansible_core (VersionSelector.exactVersion v) src latestOnPyPI =
        CoreAction.downloadFromPyPI v) ∧
    (∀ t, src = some t → t.releasePyVersion = none →
      source_is_correct_version src v = false) := by
  refine ⟨?_, ?_, ?_⟩
  · rw [← source_is_correct_version_iff src v]
    by_cases hs : source_is_correct_version src v = true
    · simp [get_ansible_core, hs]
    · have hs2 : source_is_correct_version src v = false := Bool.eq_false_iff.mpr hs
      simp [get_ansible_core, hs2]
  · intro hs
    simp [get_ansible_core, hs]
  · intro t ht hv
    subst ht
    simp [source_is_correct_version, getSourceVersion, hv]

theorem get_ansible_core_exact_source_choice_witness :
    get_ansible_core (VersionSelector.exactVersion ⟨2, 15, 0, none⟩) none
      ⟨2, 16, 0, none⟩ = CoreAction.downloadFromPyPI ⟨2, 15, 0, none⟩ :=
  (get_ansible_core_exact_source_choice none ⟨2, 15, 0, none⟩ ⟨2, 16, 0, none⟩).2.1 rfl

end AnsibleCore

namespace Galaxy

/-- The API dialect tag of galaxy.py (class GalaxyVersion). -/
inductive GalaxyVersion where
  | V2
  | V3
deriving DecidableEq

/-- galaxy.GalaxyContext: server URL, dialect, and resolved API base URL. -/
structure GalaxyContext where
  server : String
  version : GalaxyVersion
  base_url : String

/-- Query parameters of one request, as the ordered key-value pairs of the
params dict.  The page-size keys set by _get_galaxy_versions are never
already present in the client params, so dict assignment appends. -/
abbrev Params := List (String × String)

/-- One GET request issued by _get_galaxy_versions: the URL and the params
dict handed to retry_get (none when params was None). -/
structure Request where
  url : String
  params : Option Params
deriving DecidableEq

/-- The parts of a JSON page response that _get_galaxy_versions reads.  For
the array-valued keys, none means the key is absent; version records are
reduced to their version fields, the only part the code reads.  For the
next links, none models JSON null (the key itself is assumed present in a
well-formed page). -/
structure RawResponse where
  status : Nat
  dataField : Option (List String)
  resultsField : Option (List String)
  nextField : Option String
  linksNext : Option String
deriving DecidableEq

/-- Python str.startswith applied to the one-character separator, as used on
next links. -/
def startsWithSlash (s : String) : Bool :=
  match s.data with
  | [] => false
  | c :: _ => c == '/'

/-- urllib.parse.urljoin for a reference that starts with a slash: the
scheme and authority of the base with the reference as the path. -/
def urljoinAbs (base ref : String) : String :=
  match base.splitOn "/" with
  | scheme :: "" :: host :: _ => scheme ++ "//" ++ host ++ ref
  | _ => ref

/-- GalaxyClient._get_galaxy_versions, fuelled.  srv maps a URL and the sent
params to the page response; clientParams is self.params (the format=json
pair for a V2 context).  On the V2 dialect the page-size parameter is added
whenever add_params is set, which the recursion leaves unchanged; on the V3
dialect the limit parameter is added on the first request and add_params is
cleared before following the next link, whose body is read from the data key
when present and from the results key otherwise.  A 404 raises
NoSuchCollection; any other error status exhausts retry_get (RuntimeError).
Pages are concatenated in the order received, and each call also returns the
log of requests it issued. -/
def getGalaxyVersions (srv : String → Option Params → RawResponse)
    (context : GalaxyContext) (clientParams : Params) :
    Nat → String → Bool → Except GalaxyErr (List String × List Request)
  | 0, _, _ => Except.error GalaxyErr.outOfFuel
  | fuel + 1, versions_url, add_params =>
    let params : Option Params :=
      if add_params then
        if context.version = GalaxyVersion.V2 then
          some (clientParams ++ [("page_size", "100")])
        else some (clientParams ++ [("limit", "50")])
      else none
    let response := srv versions_url params
    if response.status = 404 then Except.error GalaxyErr.noSuchCollection
    else if 400 ≤ response.status then Except.error GalaxyErr.runtimeError
    else
      let step : Except GalaxyErr (List String × Option String × Bool) :=
        match context.version with
        | GalaxyVersion.V2 =>
          match response.resultsField with
          | none => Except.error GalaxyErr.keyError
          | some results => Except.ok (results, response.nextField, add_params)
        | GalaxyVersion.V3 =>
          match response.dataField with
          | some results => Except.ok (results, response.linksNext, false)
          | none =>
            match response.resultsField with
            | none => Except.error GalaxyErr.keyError
            | some results => Except.ok (results, response.linksNext, false)
      match step with
      | Except.error e => Except.error e
      | Except.ok (results, next_link, add_params2) =>
        match next_link with
        | none => Except.ok (results, [⟨versions_url, params⟩])
        | some nl =>
          if nl = "" then Except.ok (results, [⟨versions_url, params⟩])
          else
            let nl2 := if startsWithSlash nl then urljoinAbs context.server nl else nl
            match getGalaxyVersions srv context clientParams fuel nl2 add_params2 with
            | Except.error e => Except.error e
            | Except.ok (vs, reqs) =>
              Except.ok (results ++ vs, ⟨versions_url, params⟩ :: reqs)

/-- Description of one V2 page: its URL, the version fields of its results
array, and its next link. -/
structure PageSpec where
  url : String
  versions : List String
  next : Option String
deriving DecidableEq

/-- Description of one V3 page; useData records whether the server puts the
records under the data key or the results key. -/
structure V3PageSpec where
  url : String
  versions : List String
  next : Option String
  useData : Bool
deriving DecidableEq

/-- A next-link target that is followed verbatim: nonempty and not an
absolute path needing origin resolution. -/
def goodNext (u : String) : Prop := startsWithSlash u = false ∧ u ≠ ""

/-- The pages form one linked chain: each next link names the following
page's URL and the last next link is null. -/
def ChainLinkedV2 : List PageSpec → Prop
  | [] => True
  | [p] => p.next = none
  | p :: q :: rest => p.next = some q.url ∧ goodNext q.url ∧ ChainLinkedV2 (q :: rest)

/-- The V3 analogue of ChainLinkedV2. -/
def ChainLinkedV3 : List V3PageSpec → Prop
  | [] => True
  | [p] => p.next = none
  | p :: q :: rest => p.next = some q.url ∧ goodNext q.url ∧ ChainLinkedV3 (q :: rest)

/-- The V2 response serving a described page. -/
def v2Page (p : PageSpec) : RawResponse :=
  { status := 200, dataField := none, resultsField := some p.versions,
    nextField := p.next, linksNext := none }

/-- The V3 response serving a described page, under data or results as the
page prescribes. -/
def v3Page (p : V3PageSpec) : RawResponse :=
  if p.useData then
    { status := 200, dataField := some p.versions, resultsField := none,
      nextField := none, linksNext := p.next }
  else
    { status := 200, dataField := none, resultsField := some p.versions,
      nextField := none, linksNext := p.next }

theorem getGalaxyVersions_v2_chain
    (srv : String → Option Params → RawResponse) (server base_url : String)
    (clientParams : Params) :
    ∀ (rest : List PageSpec) (p : PageSpec),
      ChainLinkedV2 (p :: rest) →
      (∀ q ∈ p :: rest, ∀ ps, srv q.url ps = v2Page q) →
      ∀ fuel, rest.length + 1 ≤ fuel →
      getGalaxyVersions srv ⟨server, GalaxyVersion.V2, base_url⟩ clientParams
          fuel p.url true =
        Except.ok (((p :: rest).map PageSpec.versions).flatten,
          (p :: rest).map
            (fun q => ⟨q.url, some (clientParams ++ [("page_size", "100")])⟩)) := by
  intro rest
  induction rest with
  | nil =>
    intro p hlink hserve fuel hfuel
    cases fuel with
    | zero => omega
    | succ f =>
      have hnext : p.next = none := hlink
      have hsrv := hserve p (List.mem_cons_self p [])
      simp [getGalaxyVersions, hsrv, v2Page, hnext]
  | cons q rest2 ih =>
    intro p hlink hserve fuel hfuel
    cases fuel with
    | zero => simp at hfuel
    | succ f =>
      obtain ⟨hnext, ⟨hslash, hne⟩, hlink2⟩ := hlink
      have hsrv := hserve p (List.mem_cons_self p (q :: rest2))
      have hrec := ih q hlink2
        (fun x hx ps => hserve x (List.mem_cons_of_mem p hx) ps)
        f (by simpa using Nat.lt_succ_iff.mp (by simpa using hfuel))
      simp [getGalaxyVersions, hsrv, v2Page, hnext, hne, hslash, hrec]

theorem getGalaxyVersions_v3_tail
    (srv : String → Option Params → RawResponse) (server base_url : String)
    (clientParams : Params) :
    ∀ (rest : List V3PageSpec) (p : V3PageSpec),
      ChainLinkedV3 (p :: rest) →
      (∀ q ∈ p :: rest, ∀ ps, srv q.url ps = v3Page q) →
      ∀ fuel, rest.length + 1 ≤ fuel →
      getGalaxyVersions srv ⟨server, GalaxyVersion.V3, base_url⟩ clientParams
          fuel p.url false =
        Except.ok (((p :: rest).map V3PageSpec.versions).flatten,
          (p :: rest).map (fun q => ⟨q.url, none⟩)) := by
  intro rest
  induction rest with
  | nil =>
    intro p hlink hserve fuel hfuel
    cases fuel with
    | zero => omega
    | succ f =>
      have hnext : p.next = none := hlink
      have hsrv := hserve p (List.mem_cons_self p [])
      by_cases hud : p.useData = true
      · simp [getGalaxyVersions, hsrv, v3Page, hud, hnext]
      · have hud2 : p.useData = false := Bool.eq_false_iff.mpr hud
        simp [getGalaxyVersions, hsrv, v3Page, hud2, hnext]
  | cons q rest2 ih =>
    intro p hlink hserve fuel hfuel
    cases fuel with
    | zero => simp at hfuel
    | succ f =>
      obtain ⟨hnext, ⟨hslash, hne⟩, hlink2⟩ := hlink
      have hsrv := hserve p (List.mem_cons_self p (q :: rest2))
      have hrec := ih q hlink2
        (fun x hx ps => hserve x (List.mem_cons_of_mem p hx) ps)
        f (by simpa using Nat.lt_succ_iff.mp (by simpa using hfuel))
      by_cases hud : p.useData = true
      · simp [getGalaxyVersions, hsrv, v3Page, hud, hnext, hne, hslash, hrec]
      · have hud2 : p.useData = false := Bool.eq_false_iff.mpr hud
        simp [getGalaxyVersions, hsrv, v3Page, hud2, hnext, hne, hslash, hrec]

theorem getGalaxyVersions_v3_chain
    (srv : String → Option Params → RawResponse) (server base_url : String)
    (clientParams : Params) :
    ∀ (rest : List V3PageSpec) (p : V3PageSpec),
      ChainLinkedV3 (p :: rest) →
      (∀ q ∈ p :: rest, ∀ ps, srv q.url ps = v3Page q) →
      ∀ fuel, rest.length + 1 ≤ fuel →
      getGalaxyVersions srv ⟨server, GalaxyVersion.V3, base_url⟩ clientParams
          fuel p.url true =
        Except.ok (((p :: rest).map V3PageSpec.versions).flatten,
          ⟨p.url, some (clientParams ++ [("limit", "50")])⟩ ::
            rest.map (fun q => ⟨q.url, none⟩)) := by
  intro rest p hlink hserve fuel hfuel
  cases rest with
  | nil =>
    cases fuel with
    | zero => omega
    | succ f =>
      have hnext : p.next = none := hlink
      have hsrv := hserve p (List.mem_cons_self p [])
      by_cases hud : p.useData = true
      · simp [getGalaxyVersions, hsrv, v3Page, hud, hnext]
      · have hud2 : p.useData = false := Bool.eq_false_iff.mpr hud
        simp [getGalaxyVersions, hsrv, v3Page, hud2, hnext]
  | cons q rest2 =>
    cases fuel with
    | zero => simp at hfuel
    | succ f =>
      obtain ⟨hnext, ⟨hslash, hne⟩, hlink2⟩ := hlink
      have hsrv := hserve p (List.mem_cons_self p (q :: rest2))
      have hrec := getGalaxyVersions_v3_tail srv server base_url clientParams
        rest2 q hlink2
        (fun x hx ps => hserve x (List.mem_cons_of_mem p hx) ps)
        f (by simpa using Nat.lt_succ_iff.mp (by simpa using hfuel))
      by_cases hud : p.useData = true
      · simp [getGalaxyVersions, hsrv, v3Page, hud, hnext, hne, hslash, hrec]
      · have hud2 : p.useData = false := Bool.eq_false_iff.mpr hud
        simp [getGalaxyVersions, hsrv, v3Page, hud2, hnext, hne, hslash, hrec]

/-- C4: over any linked page chain, _get_galaxy_versions returns the
in-order concatenation of the version fields of every page reached by
following next links until null; on the V2 dialect the page-size parameter
is sent on every page request, while on the V3 dialect the limit parameter
is sent only on the first request and omitted on every subsequent next-link
request, whose body is read from the data key when present and from the
results key otherwise (each page of the chain may use either). -/
theorem getGalaxyVersions_pagination :
    (∀ (srv : String → Option Params → RawResponse) (server base_url : String)
      (clientParams : Params) (p : PageSpec) (rest : List PageSpec),
      ChainLinkedV2 (p :: rest) →
      (∀ q ∈ p :: rest, ∀ ps, srv q.url ps = v2Page q) →
      ∀ fuel, rest.length + 1 ≤ fuel →
      getGalaxyVersions srv ⟨server, GalaxyVersion.V2, base_url⟩ clientParams
          fuel p.url true =
        Except.ok (((p :: rest).map PageSpec.versions).flatten,
          (p :: rest).map
            (fun q => ⟨q.url, some (clientParams ++ [("page_size", "100")])⟩))) ∧
    (∀ (srv : String → Option Params → RawResponse) (server base_url : String)
      (clientParams : Params) (p : V3PageSpec) (rest : List V3PageSpec),
      ChainLinkedV3 (p :: rest) →
      (∀ q ∈ p :: rest, ∀ ps, srv q.url ps = v3Page q) →
      ∀ fuel, rest.length + 1 ≤ fuel →
      getGalaxyVersions srv ⟨server, GalaxyVersion.V3, base_url⟩ clientParams
          fuel p.url true =
        Except.ok (((p :: rest).map V3PageSpec.versions).flatten,
          ⟨p.url, some (clientParams ++ [("limit", "50")])⟩ ::
            rest.map (fun q => ⟨q.url, none⟩))) :=
  ⟨fun srv server base_url clientParams p rest hlink hserve fuel hfuel =>
    getGalaxyVersions_v2_chain srv server base_url clientParams rest p
      hlink hserve fuel hfuel,
   fun srv server base_url clientParams p rest hlink hserve fuel hfuel =>
    getGalaxyVersions_v3_chain srv server base_url clientParams rest p
      hlink hserve fuel hfuel⟩

theorem getGalaxyVersions_pagination_witness :
    getGalaxyVersions
      (fun u _ => if u = "https://g/v2/two" then ⟨200, none, some ["0.9.0"], none, none⟩
        else ⟨200, none, some ["2.0.0", "1.0.0"], some "https://g/v2/two", none⟩)
      ⟨"https://g", GalaxyVersion.V2, "https://g/api/v2/"⟩ [("format", "json")]
      2 "https://g/v2/one" true =
      Except.ok
        ((([(⟨"https://g/v2/one", ["2.0.0", "1.0.0"], some "https://g/v2/two"⟩ : PageSpec),
            ⟨"https://g/v2/two", ["0.9.0"], none⟩]).map PageSpec.versions).flatten,
          [(⟨"https://g/v2/one", ["2.0.0", "1.0.0"], some "https://g/v2/two"⟩ : PageSpec),
            ⟨"https://g/v2/two", ["0.9.0"], none⟩].map
            (fun q => ⟨q.url, some ([("format", "json")] ++ [("page_size", "100")])⟩)) ∧
    getGalaxyVersions
      (fun u _ => if u = "https://g/v3/two" then ⟨200, none, some ["0.5.0"], none, none⟩
        else ⟨200, some ["1.2.0"], none, none, some "https://g/v3/two"⟩)
      ⟨"https://g", GalaxyVersion.V3, "https://g/api/v3/"⟩ []
      2 "https://g/v3/one" true =
      Except.ok
        ((([(⟨"https://g/v3/one", ["1.2.0"], some "https://g/v3/two", true⟩ : V3PageSpec),
            ⟨"https://g/v3/two", ["0.5.0"], none, false⟩]).map V3PageSpec.versions).flatten,
          ⟨"https://g/v3/one", some (([] : Params) ++ [("limit", "50")])⟩ ::
            [(⟨"https://g/v3/two", ["0.5.0"], none, false⟩ : V3PageSpec)].map
              (fun q => ⟨q.url, none⟩)) :=
  ⟨getGalaxyVersions_pagination.1
    (fun u _ => if u = "https://g/v2/two" then ⟨200, none, some ["0.9.0"], none, none⟩
      else ⟨200, none, some ["2.0.0", "1.0.0"], some "https://g/v2/two", none⟩)
    "https://g" "https://g/api/v2/" [("format", "json")]
    ⟨"https://g/v2/one", ["2.0.0", "1.0.0"], some "https://g/v2/two"⟩
    [⟨"https://g/v2/two", ["0.9.0"], none⟩]
    ⟨rfl, ⟨by decide, by decide⟩, rfl⟩
    (by
      intro q hq ps
      rcases List.mem_cons.mp hq with rfl | hq2
      · rfl
      · rcases List.mem_cons.mp hq2 with rfl | hq3
        · rfl
        · cases hq3)
    2 (by simp),
   getGalaxyVersions_pagination.2
    (fun u _ => if u = "https://g/v3/two" then ⟨200, none, some ["0.5.0"], none, none⟩
      else ⟨200, some ["1.2.0"], none, none, some "https://g/v3/two"⟩)
    "https://g" "https://g/api/v3/" []
    ⟨"https://g/v3/one", ["1.2.0"], some "https://g/v3/two", true⟩
    [⟨"https://g/v3/two", ["0.5.0"], none, false⟩]
    ⟨rfl, ⟨by decide, by decide⟩, rfl⟩
    (by
      intro q hq ps
      rcases List.mem_cons.mp hq with rfl | hq2
      · rfl
      · rcases List.mem_cons.mp hq2 with rfl | hq3
        · rfl
        · cases hq3)
    2 (by simp)⟩

end Galaxy

end Antsibull
